import Mathlib

/-!
# Civilized philosophers buffet: `simulation.c`

A shallow embedding of `src/simulation.c` (argument processing, creation of the
shared state, the semaphore helpers `lock`/`unlock`, the process launcher `go`
and the teardown `finish`) together with the properties its specification
states about it.

C strings are lists of characters, C `int`s are integers, process exit is an
explicit outcome, and the operating system (System V semaphores, shared
memory, `fork`/`wait`) is modelled by explicit replies and explicit traces.
-/

namespace Buffet

/-! ## C strings and `atoi` -/

/-- A C string: its characters, without the terminating NUL. -/
abbrev CStr := List Char

/-- The C locale `isspace`: space, `\t`, `\n`, `\v`, `\f`, `\r`. -/
def isspace (c : Char) : Bool :=
  c.toNat = 32 || (9 ≤ c.toNat && c.toNat ≤ 13)

/-- The C locale `isdigit`. -/
def isdigit (c : Char) : Bool :=
  48 ≤ c.toNat && c.toNat ≤ 57

/-- Value of the longest prefix of decimal digits, continuing from `acc`. -/
def digitsValue : Nat → CStr → Nat
  | acc, [] => acc
  | acc, c :: cs => if isdigit c then digitsValue (acc * 10 + (c.toNat - 48)) cs else acc

/-- Skips leading white space. -/
def skipSpaces : CStr → CStr
  | [] => []
  | c :: cs => if isspace c then skipSpaces cs else c :: cs

/-- Saturation of `strtol` to the range of a 64-bit `long`. -/
def clampLong (x : Int) : Int :=
  if x < -9223372036854775808 then -9223372036854775808
  else if 9223372036854775807 < x then 9223372036854775807
  else x

/-- Conversion of a `long` to a 32-bit `int` (two's complement truncation). -/
def toInt32 (x : Int) : Int :=
  (x + 2147483648) % 4294967296 - 2147483648

/-- The function `strtol(s, NULL, 10)`: optional white space, optional sign, decimal
digits; `0` when there is no digit; saturating at the bounds of `long`. -/
def strtol (s : CStr) : Int :=
  match skipSpaces s with
  | '-' :: cs => clampLong (-(digitsValue 0 cs : Int))
  | '+' :: cs => clampLong (digitsValue 0 cs)
  | cs => clampLong (digitsValue 0 cs)

/-- The function `atoi(s)`, which is `(int) strtol(s, NULL, 10)`. -/
def atoi (s : CStr) : Int :=
  toInt32 (strtol s)

/-! ## Parameters -/

/-- Modelled from the spec: the header declaring `Parameters` is not under `src/`; the
fields are those that `processArgs` and `showParams` access, in the order in which
`showParams` prints them, taken to be the order of the positional initializer in
`main`. -/
structure Parameters where
  NUM_PHILOSOPHERS : Int
  PHILOSOPHER_MIN_LIVE : Int
  PHILOSOPHER_MAX_LIVE : Int
  NUM_FORKS : Int
  NUM_KNIVES : Int
  NUM_PIZZA : Int
  NUM_SPAGHETTI : Int
  THINK_TIME : Int
  CHOOSE_PIZZA_PROB : Int
  EAT_TIME : Int
  WASH_TIME : Int
  deriving DecidableEq, Repr

/-- The default parameter values, `Parameters params = {3,10,100,3,2,10,10,20,50,10,15}`
in `main`. -/
def defaultParams : Parameters :=
  ⟨3, 10, 100, 3, 2, 10, 10, 20, 50, 10, 15⟩

/-- The defaults that the text printed by `help` documents, option by option:
`-n` 5, `-l` 10, `-L` 100, `-f` 3, `-k` 2, `-p` 10, `-s` 10, `-t` 20, `-c` 50,
`-e` 10, `-w` 15. -/
def helpDefaults : Parameters :=
  { NUM_PHILOSOPHERS := 5
    PHILOSOPHER_MIN_LIVE := 10
    PHILOSOPHER_MAX_LIVE := 100
    NUM_FORKS := 3
    NUM_KNIVES := 2
    NUM_PIZZA := 10
    NUM_SPAGHETTI := 10
    THINK_TIME := 20
    CHOOSE_PIZZA_PROB := 50
    EAT_TIME := 10
    WASH_TIME := 15 }

/-- The configuration constraints of the specification. -/
def validConfig (p : Parameters) : Prop :=
  1 ≤ p.NUM_PHILOSOPHERS ∧
  0 ≤ p.PHILOSOPHER_MIN_LIVE ∧ p.PHILOSOPHER_MIN_LIVE ≤ p.PHILOSOPHER_MAX_LIVE ∧
  2 ≤ p.NUM_FORKS ∧ 1 ≤ p.NUM_KNIVES ∧
  1 ≤ p.NUM_PIZZA ∧ 1 ≤ p.NUM_SPAGHETTI ∧
  0 ≤ p.THINK_TIME ∧ 0 ≤ p.EAT_TIME ∧ 0 ≤ p.WASH_TIME ∧
  0 ≤ p.CHOOSE_PIZZA_PROB ∧ p.CHOOSE_PIZZA_PROB ≤ 100

instance (p : Parameters) : Decidable (validConfig p) := by
  unfold validConfig; infer_instance

/-- The configuration constraints without the one relating minimum and maximum life. -/
def validConfigExceptLifeOrder (p : Parameters) : Prop :=
  1 ≤ p.NUM_PHILOSOPHERS ∧
  0 ≤ p.PHILOSOPHER_MIN_LIVE ∧ 0 ≤ p.PHILOSOPHER_MAX_LIVE ∧
  2 ≤ p.NUM_FORKS ∧ 1 ≤ p.NUM_KNIVES ∧
  1 ≤ p.NUM_PIZZA ∧ 1 ≤ p.NUM_SPAGHETTI ∧
  0 ≤ p.THINK_TIME ∧ 0 ≤ p.EAT_TIME ∧ 0 ≤ p.WASH_TIME ∧
  0 ≤ p.CHOOSE_PIZZA_PROB ∧ p.CHOOSE_PIZZA_PROB ≤ 100

instance (p : Parameters) : Decidable (validConfigExceptLifeOrder p) := by
  unfold validConfigExceptLifeOrder; infer_instance

/-! ## `getopt_long` -/

/-- What one call of `getopt_long` hands to the caller: the value returned (an option
character, or `?` for an error) and `optarg`. -/
structure OptResult where
  op : Char
  optarg : CStr
  deriving DecidableEq, Repr

/-- The short option string passed to `getopt_long`. -/
def optstring : CStr := "hn:l:L:f:k:p:s:t:c:e:w:".toList

/-- One entry of `long_options`: name, whether an argument is required, value returned. -/
structure LongOption where
  name : CStr
  has_arg : Bool
  val : Char
  deriving DecidableEq, Repr

/-- The table `long_options` of `processArgs`. -/
def long_options : List LongOption :=
  [ ⟨"help".toList, false, 'h'⟩,
    ⟨"num-philosophers".toList, true, 'n'⟩,
    ⟨"min-life".toList, true, 'l'⟩,
    ⟨"max-life".toList, true, 'L'⟩,
    ⟨"num-forks".toList, true, 'f'⟩,
    ⟨"num-knives".toList, true, 'k'⟩,
    ⟨"pizza".toList, true, 'p'⟩,
    ⟨"spaghetti".toList, true, 's'⟩,
    ⟨"think-time".toList, true, 't'⟩,
    ⟨"choose-pizza-prob".toList, true, 'c'⟩,
    ⟨"eat-time".toList, true, 'e'⟩,
    ⟨"wash-time".toList, true, 'w'⟩ ]

/-- Looks `c` up in an option string (`strchr`): `none` when `c` is not an option
character, otherwise whether it is followed by a colon (requires an argument). -/
def shortLookup : CStr → Char → Option Bool
  | [], _ => none
  | x :: rest, c =>
    if x = c then some (rest.head? = some ':') else shortLookup rest c

/-- Classification of a short option character by `getopt_long`: `:` and `;` are
never options. -/
def shortOption (c : Char) : Option Bool :=
  if c = ':' ∨ c = ';' then none else shortLookup optstring c

/-- What processing one ARGV-element yields: the results of the calls it completes,
and, when its last option still needs the next ARGV-element as its argument,
the value of that option. -/
structure ElementScan where
  results : List OptResult
  pending : Option Char
  deriving DecidableEq, Repr

/-- A cluster of short options (the ARGV-element without its leading dash). -/
def shortCluster : CStr → ElementScan
  | [] => ⟨[], none⟩
  | c :: rest =>
    match shortOption c with
    | none => let r := shortCluster rest; ⟨⟨'?', []⟩ :: r.results, r.pending⟩
    | some false => let r := shortCluster rest; ⟨⟨c, []⟩ :: r.results, r.pending⟩
    | some true =>
      match rest with
      | [] => ⟨[], some c⟩
      | _ :: _ => ⟨[⟨c, rest⟩], none⟩

/-- The name part of a long option: the characters up to `=`. -/
def longName : CStr → CStr
  | [] => []
  | c :: cs => if c = '=' then [] else c :: longName cs

/-- The part after the first `=` of a long option, if there is a `=`. -/
def longValue : CStr → Option CStr
  | [] => none
  | c :: cs => if c = '=' then some cs else longValue cs

/-- Finds the long option a name designates: an exact match, or else the only option
of which the name is a prefix; `none` when there is none or several (all entries
of `long_options` differ in `val`, so two prefix matches are ambiguous). -/
def findLong (name : CStr) : Option LongOption :=
  match long_options.find? (fun o => o.name = name) with
  | some o => some o
  | none =>
    match long_options.filter (fun o => name.isPrefixOf o.name) with
    | [o] => some o
    | _ => none

/-- A long option (the ARGV-element without its leading two dashes). -/
def longElement (s : CStr) : ElementScan :=
  match findLong (longName s) with
  | none => ⟨[⟨'?', []⟩], none⟩
  | some o =>
    match longValue s with
    | some v => if o.has_arg then ⟨[⟨o.val, v⟩], none⟩ else ⟨[⟨'?', []⟩], none⟩
    | none => if o.has_arg then ⟨[], some o.val⟩ else ⟨[⟨o.val, []⟩], none⟩

/-- An ARGV-element that is not an option: it does not start with a dash, or is
exactly one dash. -/
def isNonOption : CStr → Bool
  | '-' :: _ :: _ => false
  | _ => true

/-- An ARGV-element that is an option (it starts with a dash and is longer). -/
def scanElement : CStr → ElementScan
  | '-' :: '-' :: s => longElement s
  | '-' :: s => shortCluster s
  | _ => ⟨[], none⟩

/-- The run of `getopt_long` over the ARGV-elements after `argv[0]`, in the default
permuting mode: the results of its successive calls up to the final `-1`, and
whether `optind < argc` afterwards (some ARGV-element was not an option).
The element `--` ends the options; an option requiring an argument takes the rest
of its element or else the next element, and yields `?` when there is none. -/
def getoptScan : List CStr → List OptResult × Bool
  | [] => ([], false)
  | a :: rest =>
    if a = ['-', '-'] then ([], !rest.isEmpty)
    else if isNonOption a then ((getoptScan rest).1, true)
    else
      match rest with
      | [] =>
        match (scanElement a).pending with
        | none => ((scanElement a).results, false)
        | some _ => ((scanElement a).results ++ [⟨'?', []⟩], false)
      | b :: rest' =>
        match (scanElement a).pending with
        | none =>
          ((scanElement a).results ++ (getoptScan (b :: rest')).1, (getoptScan (b :: rest')).2)
        | some v =>
          ((scanElement a).results ++ ⟨v, b⟩ :: (getoptScan rest').1, (getoptScan rest').2)

/-- All calls of `getopt_long(argc, argv, ...)`: `argv[0]` is the program name. -/
def getopt_long (argv : List CStr) : List OptResult × Bool :=
  getoptScan argv.tail

/-! ## `processArgs` -/

/-- Exit status `EXIT_SUCCESS`. -/
def EXIT_SUCCESS : Int := 0

/-- Exit status `EXIT_FAILURE`. -/
def EXIT_FAILURE : Int := 1

/-- A function returns to its caller, ends the process with `exit`, or ends it with
`abort` on a failed `assert`. -/
inductive Outcome (α : Type) where
  | returned (val : α)
  | exited (status : Int)
  | aborted
  deriving DecidableEq, Repr

/-- The body of the `switch` of `processArgs` for one result of `getopt_long`. -/
def processOption (params : Parameters) (r : OptResult) : Outcome Parameters :=
  let n := atoi r.optarg
  if r.op = 'h' then .exited EXIT_SUCCESS
  else if r.op = 'n' then
    if n < 1 then .exited EXIT_FAILURE
    else .returned { params with NUM_PHILOSOPHERS := n }
  else if r.op = 'l' then
    if n < 0 ∨ (n = 0 ∧ r.optarg ≠ ['0']) then .exited EXIT_FAILURE
    else .returned { params with PHILOSOPHER_MIN_LIVE := n }
  else if r.op = 'L' then
    if n < 0 ∨ n < params.PHILOSOPHER_MIN_LIVE ∨ (n = 0 ∧ r.optarg ≠ ['0']) then
      .exited EXIT_FAILURE
    else .returned { params with PHILOSOPHER_MAX_LIVE := n }
  else if r.op = 'f' then
    if n < 2 then .exited EXIT_FAILURE
    else .returned { params with NUM_FORKS := n }
  else if r.op = 'k' then
    if n < 1 then .exited EXIT_FAILURE
    else .returned { params with NUM_KNIVES := n }
  else if r.op = 'p' then
    if n < 1 then .exited EXIT_FAILURE
    else .returned { params with NUM_PIZZA := n }
  else if r.op = 's' then
    if n < 1 then .exited EXIT_FAILURE
    else .returned { params with NUM_SPAGHETTI := n }
  else if r.op = 't' then
    if n < 0 ∨ (n = 0 ∧ r.optarg ≠ ['0']) then .exited EXIT_FAILURE
    else .returned { params with THINK_TIME := n }
  else if r.op = 'c' then
    if n < 0 ∨ 100 < n ∨ (n = 0 ∧ r.optarg ≠ ['0']) then .exited EXIT_FAILURE
    else .returned { params with CHOOSE_PIZZA_PROB := n }
  else if r.op = 'e' then
    if n < 0 ∨ (n = 0 ∧ r.optarg ≠ ['0']) then .exited EXIT_FAILURE
    else .returned { params with EAT_TIME := n }
  else if r.op = 'w' then
    if n < 0 ∨ (n = 0 ∧ r.optarg ≠ ['0']) then .exited EXIT_FAILURE
    else .returned { params with WASH_TIME := n }
  else .exited EXIT_FAILURE

/-- The `while (op != -1)` loop of `processArgs` over the successive results of
`getopt_long`. -/
def processLoop (params : Parameters) : List OptResult → Outcome Parameters
  | [] => .returned params
  | r :: rs =>
    match processOption params r with
    | .returned p => processLoop p rs
    | .exited status => .exited status
    | .aborted => .aborted

/-- The function `processArgs(&params, argc, argv)`: the assertion
`argc >= 0 && argv != NULL && argv[0] != NULL` (it fails on an argument vector without
a program name), the option loop, then the test `optind < argc`. -/
def processArgs (params : Parameters) (argv : List CStr) : Outcome Parameters :=
  if argv.isEmpty then .aborted
  else
    match processLoop params (getopt_long argv).1 with
    | .exited status => .exited status
    | .aborted => .aborted
    | .returned p =>
      if (getopt_long argv).2 then .exited EXIT_FAILURE else .returned p

/-! ## The lock manager: `lock` and `unlock` -/

/-- The flag constants of `SemphType`.  The header declaring them is not under `src/`,
so their values are parameters of `lock`, `unlock` and `initSimulation`. -/
structure SemphFlags where
  SEMPH_PHILOSOPHERS : Nat
  SEMPH_PIZZAS : Nat
  SEMPH_SPAGHETTI : Nat
  SEMPH_CUTLERY : Nat
  SEMPH_ALL : Nat
  deriving DecidableEq, Repr

/-- The four class flags are non-zero. -/
def SemphFlags.nonZero (F : SemphFlags) : Prop :=
  F.SEMPH_PHILOSOPHERS ≠ 0 ∧ F.SEMPH_PIZZAS ≠ 0 ∧ F.SEMPH_SPAGHETTI ≠ 0 ∧ F.SEMPH_CUTLERY ≠ 0

instance (F : SemphFlags) : Decidable F.nonZero := by
  unfold SemphFlags.nonZero; infer_instance

/-- Four distinct one-bit flags and their union. -/
def bitFlags : SemphFlags :=
  ⟨1, 2, 4, 8, 15⟩

/-- The flag of the class guarded by semaphore `i`. -/
def SemphFlags.classFlag (F : SemphFlags) (i : Nat) : Nat :=
  match i with
  | 0 => F.SEMPH_PHILOSOPHERS
  | 1 => F.SEMPH_PIZZAS
  | 2 => F.SEMPH_SPAGHETTI
  | _ => F.SEMPH_CUTLERY

/-- Class `i` is in the requested set `type`: their flags have a common bit. -/
def requested (F : SemphFlags) (type : Nat) (i : Nat) : Prop :=
  type &&& F.classFlag i ≠ 0

instance (F : SemphFlags) (type i : Nat) : Decidable (requested F type i) := by
  unfold requested; infer_instance

/-- The operation `struct sembuf`. -/
structure Sembuf where
  sem_num : Nat
  sem_op : Int
  sem_flg : Int
  deriving DecidableEq, Repr

/-- One call `semop(semid, &buf, 1)`. -/
structure SemopCall where
  semid : Int
  buf : Sembuf
  deriving DecidableEq, Repr

/-- The function `lock(type)`: the `semop` calls it issues, in order, on the global `semid`. -/
def lock (F : SemphFlags) (semid : Int) (type : Nat) : List SemopCall :=
  (if type ||| F.SEMPH_PHILOSOPHERS ≠ 0 then [⟨semid, ⟨0, -1, 0⟩⟩] else []) ++
  (if type ||| F.SEMPH_PIZZAS ≠ 0 then [⟨semid, ⟨1, -1, 0⟩⟩] else []) ++
  (if type ||| F.SEMPH_SPAGHETTI ≠ 0 then [⟨semid, ⟨2, -1, 0⟩⟩] else []) ++
  (if type ||| F.SEMPH_CUTLERY ≠ 0 then [⟨semid, ⟨3, -1, 0⟩⟩] else [])

/-- The function `unlock(type)`: the `semop` calls it issues, in order, on the global `semid`. -/
def unlock (F : SemphFlags) (semid : Int) (type : Nat) : List SemopCall :=
  (if type ||| F.SEMPH_PHILOSOPHERS ≠ 0 then [⟨semid, ⟨0, 1, 0⟩⟩] else []) ++
  (if type ||| F.SEMPH_PIZZAS ≠ 0 then [⟨semid, ⟨1, 1, 0⟩⟩] else []) ++
  (if type ||| F.SEMPH_SPAGHETTI ≠ 0 then [⟨semid, ⟨2, 1, 0⟩⟩] else []) ++
  (if type ||| F.SEMPH_CUTLERY ≠ 0 then [⟨semid, ⟨3, 1, 0⟩⟩] else [])

/-- The semaphore indices a sequence of calls operates on, in order. -/
def semNums (calls : List SemopCall) : List Nat :=
  calls.map (fun c => c.buf.sem_num)

/-- The calls of a sequence that are a down operation (`sem_op = -1`) on semaphore `i`. -/
def downsOn (calls : List SemopCall) (i : Nat) : Nat :=
  calls.countP (fun c => c.buf.sem_num = i ∧ c.buf.sem_op = -1)

/-- The calls of a sequence that are an up operation (`sem_op = +1`) on semaphore `i`. -/
def upsOn (calls : List SemopCall) (i : Nat) : Nat :=
  calls.countP (fun c => c.buf.sem_num = i ∧ c.buf.sem_op = 1)

/-! ### System V semaphore semantics -/

/-- The largest value of a semaphore (`SEMVMX`). -/
def SEMVMX : Int := 32767

/-- The system call `semop(semid, &buf, 1)` with `sem_flg = 0` on the values of the
semaphore set: with an invalid identifier (negative, as a failed `semget` returns,
`EINVAL`), a semaphore number outside the set (`EFBIG`) or a result above `SEMVMX`
(`ERANGE`) the call fails and changes nothing; otherwise the value is changed by
`sem_op`, and the caller blocks (`none`) if that would make it negative. -/
def semop (vals : List Int) (c : SemopCall) : Option (List Int) :=
  if c.semid < 0 then some vals
  else
    match vals.get? c.buf.sem_num with
    | none => some vals
    | some v =>
      if v + c.buf.sem_op < 0 then none
      else if SEMVMX < v + c.buf.sem_op then some vals
      else some (vals.set c.buf.sem_num (v + c.buf.sem_op))

/-- A sequence of `semop` calls by one process; `none` when it blocks in one of them. -/
def runSemops : List Int → List SemopCall → Option (List Int)
  | vals, [] => some vals
  | vals, c :: cs =>
    match semop vals c with
    | none => none
    | some vals' => runSemops vals' cs

/-! ## The shared state -/

/-- Modelled from the spec: the header declaring the philosopher states is not under
`src/`; `P_BIRTH` is the state named by `initSimulation`, the others are the life
states THINKING, HUNGRY, EATING, WASHING, DEAD of the specification. -/
inductive PhilosopherState where
  | P_BIRTH | P_THINKING | P_HUNGRY | P_EATING | P_WASHING | P_DEAD
  deriving DecidableEq, Repr

/-- Modelled from the spec: the chosen food, `P_NONE` (named by `initSimulation`),
PIZZA or SPAGHETTI. -/
inductive Meal where
  | P_NONE | P_PIZZA | P_SPAGHETTI
  deriving DecidableEq, Repr

/-- Modelled from the spec: the content of a held-cutlery slot, `P_NOTHING` (named by
`initSimulation`), FORK or KNIFE. -/
inductive Cutlery where
  | P_NOTHING | P_FORK | P_KNIFE
  deriving DecidableEq, Repr

/-- Modelled from the spec: the record `Philosopher`, fields in the order of the
initializer `{P_BIRTH,P_NONE,{P_NOTHING,P_NOTHING}}`: life state, chosen food, and
the two held-cutlery slots. -/
structure Philosopher where
  state : PhilosopherState
  meal : Meal
  cutlery0 : Cutlery
  cutlery1 : Cutlery
  deriving DecidableEq, Repr

/-- Modelled from the spec: the waiter activity, `W_NONE` (named by `initSimulation`) or
one of the three maintenance tasks. -/
inductive WaiterState where
  | W_NONE | W_SERVING_PIZZA | W_SERVING_SPAGHETTI | W_WASHING_CUTLERY
  deriving DecidableEq, Repr

/-- Modelled from the spec: status of one maintenance task of the waiter. -/
inductive WaiterRequest where
  | W_INACTIVE | W_ACTIVE
  deriving DecidableEq, Repr

/-- Modelled from the spec: the record `Waiter`, fields in the order of the
initializer `{W_NONE,W_INACTIVE,W_INACTIVE,W_INACTIVE}`: activity, then the three
maintenance sub-statuses. -/
structure Waiter where
  state : WaiterState
  reqPizza : WaiterRequest
  reqSpaghetti : WaiterRequest
  reqCutlery : WaiterRequest
  deriving DecidableEq, Repr

/-- Modelled from the spec: the record `DiningRoom`, fields in the order of the
positional initializer in `initSimulation`: the four stock counters, then the
four auxiliary counters. -/
structure DiningRoom where
  pizzaStock : Int
  spaghettiStock : Int
  forksAvailable : Int
  knivesAvailable : Int
  aux0 : Int
  aux1 : Int
  aux2 : Int
  aux3 : Int
  deriving DecidableEq, Repr

/-- The record `Simulation`: the parameters and the three shared regions; the
philosophers are the records that the pointers `philosophers[0..n-1]` designate. -/
structure Simulation where
  params : Parameters
  diningRoom : DiningRoom
  philosophers : List Philosopher
  waiter : Waiter
  deriving DecidableEq, Repr

/-! ## The operating system -/

/-- The replies of the operating system to the resource-creation calls of
`initSimulation`: the identifier that `semget` and each `shmget` return (`-1` on
failure), and whether `shmat` of a valid segment succeeds. -/
structure OsReplies where
  semget : Int
  shmget_diningRoom : Int
  shmat_diningRoom : Bool
  shmget_philosophers : Int
  shmat_philosophers : Bool
  shmget_waiter : Int
  shmat_waiter : Bool
  deriving DecidableEq, Repr

/-- The call `shmat(shmid, NULL, 0)`: whether it returns an attachment; it fails and
returns `(void*)-1` for an invalid identifier. -/
def shmat (shmid : Int) (reply : Bool) : Bool :=
  decide (0 ≤ shmid) && reply

/-- Everything outside the program that a run depends on. -/
structure World where
  os : OsReplies
  /-- values of the semaphore set with key `sem_key` when `semget` returns it. -/
  sems : List Int
  /-- contents of the philosophers segment when it is attached. -/
  phi : Nat → Philosopher
  /-- whether the call `philosopher(sim, sim->philosophers[i])` returns. -/
  philosopherReturns : Nat → Bool
  /-- whether the waiter process is ever ended: by code that is not under `src/`
  (`waiterLoop`, `philosopher`) or by a signal; `go` and `finish` never end it. -/
  waiterExits : Bool

/-- The three shared-memory segments. -/
inductive Segment where
  | diningRoom | philosophers | waiter
  deriving DecidableEq, Repr

/-- How `initSimulation` ends: it returns the simulation, or it executes a `memcpy`
through the pointer `(void*)-1` of a failed attachment (an invalid write, which
kills the process). -/
inductive InitResult where
  | returned (sim : Simulation)
  | invalidWrite (seg : Segment)
  deriving DecidableEq, Repr

/-- A run of `initSimulation`: the globals it sets, the `semop` calls it issues, the
semaphore values afterwards (`none` if it blocks), and how it ends. -/
structure InitRun where
  semid : Int
  diningRoom_shmid : Int
  philosophers_shmid : Int
  waiter_shmid : Int
  semops : List SemopCall
  sems : Option (List Int)
  result : InitResult
  deriving DecidableEq, Repr

/-- The loop `for(i = 0; i < NUM_PHILOSOPHERS; i++) memcpy(&phi[i], &p, ...)` on the
attached segment, with `k` iterations left. -/
def initPhilosophers (p : Philosopher) : Nat → Nat → (Nat → Philosopher) → (Nat → Philosopher)
  | 0, _, phi => phi
  | k + 1, i, phi => initPhilosophers p k (i + 1) (fun j => if j = i then p else phi j)

/-- The function `initSimulation(NULL, &params)`. -/
def initSimulation (F : SemphFlags) (w : World) (params : Parameters) : InitRun :=
  let semid := w.os.semget
  let semops := unlock F semid F.SEMPH_ALL
  let sems := runSemops w.sems semops
  let diningRoom_shmid := w.os.shmget_diningRoom
  let diningRoom := shmat diningRoom_shmid w.os.shmat_diningRoom
  let s : DiningRoom :=
    ⟨params.NUM_PIZZA, params.NUM_SPAGHETTI, params.NUM_FORKS, params.NUM_KNIVES, 0, 0, 0, 0⟩
  let p : Philosopher := ⟨.P_BIRTH, .P_NONE, .P_NOTHING, .P_NOTHING⟩
  let philosophers_shmid := w.os.shmget_philosophers
  let phi := shmat philosophers_shmid w.os.shmat_philosophers
  let n := params.NUM_PHILOSOPHERS.toNat
  let waiter_shmid := w.os.shmget_waiter
  let waiter := shmat waiter_shmid w.os.shmat_waiter
  let wt : Waiter := ⟨.W_NONE, .W_INACTIVE, .W_INACTIVE, .W_INACTIVE⟩
  let result : InitResult :=
    if !diningRoom then .invalidWrite .diningRoom
    else if !phi && 0 < n then .invalidWrite .philosophers
    else if !waiter then .invalidWrite .waiter
    else .returned ⟨params, s, (List.range n).map (initPhilosophers p n 0 w.phi), wt⟩
  ⟨semid, diningRoom_shmid, philosophers_shmid, waiter_shmid, semops, sems, result⟩

/-! ## `go`, `finish` and `main` -/

/-- The child processes of the orchestrator. -/
inductive Child where
  | philosopher (i : Nat)
  | waiter
  deriving DecidableEq, Repr

/-- A forked child and whether it ever terminates. -/
structure ChildProcess where
  kind : Child
  terminates : Bool
  deriving DecidableEq, Repr

/-- How `go` ends: it returns, or it stays in `wait` for ever with the given children
still alive. -/
inductive GoResult where
  | returned
  | waitsForever (alive : List Child)
  deriving DecidableEq, Repr

/-- The children that `go` forks (every `fork` succeeding), in order: philosopher `i`
runs `philosopher(sim, sim->philosophers[i]); exit(0);` and so terminates when that
call returns; the last child runs `while(1) waiterLoop(sim);`, a loop that is never
left, so that this child terminates only if it is ended from inside `waiterLoop`
or from outside. -/
def forkChildren (w : World) (sim : Simulation) : List ChildProcess :=
  (List.range sim.params.NUM_PHILOSOPHERS.toNat).map
      (fun i => ⟨.philosopher i, w.philosopherReturns i⟩) ++
    [⟨.waiter, w.waiterExits⟩]

/-- The loop `while(wait(NULL) > 0);`: each call of `wait` returns the pid of a child that
has terminated and reaps it; it returns `-1` once the caller has no child left, and
does not return while children remain none of which terminates. -/
def waitLoop (children : List ChildProcess) : GoResult :=
  match children.filter (fun c => !c.terminates) with
  | [] => .returned
  | c :: cs => .waitsForever ((c :: cs).map (fun c => c.kind))

/-- The function `go(sim)`. -/
def go (w : World) (sim : Simulation) : GoResult :=
  waitLoop (forkChildren w sim)

/-- A removal request for a kernel object (`IPC_RMID`). -/
inductive Release where
  | semctl (semid : Int)
  | shmctl (shmid : Int)
  deriving DecidableEq, Repr

/-- The function `finish(sim)`: the removals it requests, in order. -/
def finish (r : InitRun) : List Release :=
  [.semctl r.semid, .shmctl r.diningRoom_shmid, .shmctl r.philosophers_shmid,
   .shmctl r.waiter_shmid]

/-- The functions that `main` calls. -/
inductive Call where
  | processArgs | showParams | getchar | initSimulation | logger | go | finish
  deriving DecidableEq, Repr

/-- How the orchestrator process ends. -/
inductive MainOutcome where
  | exited (status : Int)
  | aborted
  | killed (seg : Segment)
  | waitsForever (alive : List Child)
  | returned (status : Int)
  deriving DecidableEq, Repr

/-- A run of `main`: the calls it makes, in order, the `semop` calls and the removals
issued, and how it ends. -/
structure MainRun where
  calls : List Call
  semops : List SemopCall
  releases : List Release
  outcome : MainOutcome
  deriving DecidableEq, Repr

/-- The function `main(argc, argv)`. -/
def main (F : SemphFlags) (w : World) (argv : List CStr) : MainRun :=
  match processArgs defaultParams argv with
  | .exited status => ⟨[.processArgs], [], [], .exited status⟩
  | .aborted => ⟨[.processArgs], [], [], .aborted⟩
  | .returned params =>
    let r := initSimulation F w params
    match r.result with
    | .invalidWrite seg =>
      ⟨[.processArgs, .showParams, .getchar, .initSimulation], r.semops, [], .killed seg⟩
    | .returned sim =>
      match go w sim with
      | .waitsForever alive =>
        ⟨[.processArgs, .showParams, .getchar, .initSimulation, .logger, .go], r.semops, [],
          .waitsForever alive⟩
      | .returned =>
        ⟨[.processArgs, .showParams, .getchar, .initSimulation, .logger, .go, .finish],
          r.semops, finish r, .returned 0⟩

/-- A world in which every creation step succeeds on fresh kernel objects, every
philosopher terminates and nothing ends the waiter. -/
def goodWorld : World :=
  { os := ⟨0, 1, true, 2, true, 3, true⟩
    sems := [0, 0, 0, 0]
    phi := fun _ => ⟨.P_DEAD, .P_PIZZA, .P_FORK, .P_KNIFE⟩
    philosopherReturns := fun _ => true
    waiterExits := false }

/-- The world `goodWorld`, except that `semget` fails. -/
def semgetFails : World :=
  { goodWorld with os := ⟨-1, 1, true, 2, true, 3, true⟩ }

/-- Every shared-memory step succeeds: the three `shmget` return an identifier and the
three `shmat` an attachment. -/
def OsReplies.shmOk (os : OsReplies) : Prop :=
  0 ≤ os.shmget_diningRoom ∧ os.shmat_diningRoom = true ∧
  0 ≤ os.shmget_philosophers ∧ os.shmat_philosophers = true ∧
  0 ≤ os.shmget_waiter ∧ os.shmat_waiter = true

instance (os : OsReplies) : Decidable os.shmOk := by
  unfold OsReplies.shmOk; infer_instance

/-- The record that `initSimulation` copies into every philosopher slot. -/
def bornPhilosopher : Philosopher :=
  ⟨.P_BIRTH, .P_NONE, .P_NOTHING, .P_NOTHING⟩

/-- The invariant of the specification: a held-cutlery slot is not `P_NOTHING` only
while the philosopher is eating. -/
def heldOnlyWhileEating (sim : Simulation) : Prop :=
  ∀ p ∈ sim.philosophers,
    (p.cutlery0 ≠ .P_NOTHING ∨ p.cutlery1 ≠ .P_NOTHING) → p.state = .P_EATING

/-- Number of cutlery units of kind `c` held in the slots of one philosopher. -/
def Philosopher.holds (p : Philosopher) (c : Cutlery) : Nat :=
  (if p.cutlery0 = c then 1 else 0) + (if p.cutlery1 = c then 1 else 0)

/-- Number of cutlery units of kind `c` held by the philosophers. -/
def heldCutlery (sim : Simulation) (c : Cutlery) : Int :=
  ((sim.philosophers.map (fun p => p.holds c)).sum : Nat)

/-- Number of portions of food `m` taken by the philosophers (those whose chosen food
is `m`). -/
def heldMeals (sim : Simulation) (m : Meal) : Int :=
  (sim.philosophers.countP (fun p => p.meal = m) : Nat)

/-- The four auxiliary counters of the dining room (units pending washing or
replenishment). -/
def DiningRoom.pending (d : DiningRoom) : List Int :=
  [d.aux0, d.aux1, d.aux2, d.aux3]

/-- Conservation in a state, for the configured supply: for each resource type, stock
plus held plus pending equals the configured total, whichever auxiliary counter
records the pending units of that type. -/
def conservation (sim : Simulation) : Prop :=
  ∀ a ∈ sim.diningRoom.pending,
    sim.diningRoom.pizzaStock + heldMeals sim .P_PIZZA + a = sim.params.NUM_PIZZA ∧
    sim.diningRoom.spaghettiStock + heldMeals sim .P_SPAGHETTI + a = sim.params.NUM_SPAGHETTI ∧
    sim.diningRoom.forksAvailable + heldCutlery sim .P_FORK + a = sim.params.NUM_FORKS ∧
    sim.diningRoom.knivesAvailable + heldCutlery sim .P_KNIFE + a = sim.params.NUM_KNIVES

/-! ## Properties of the lock manager -/

/-- A bitwise OR with a non-zero flag is non-zero. -/
theorem lor_ne_zero_of_right (t f : Nat) (hf : f ≠ 0) : t ||| f ≠ 0 := by
  intro h
  apply hf
  apply Nat.eq_of_testBit_eq
  intro i
  have hbit := congrArg (fun x => Nat.testBit x i) h
  simp only [Nat.testBit_or, Nat.zero_testBit, Bool.or_eq_false_iff] at hbit
  simp [hbit.2]

/-- With non-zero flags every test `type | FLAG` of `lock` succeeds: it issues the four
down operations whatever the requested set. -/
theorem lock_all_four (F : SemphFlags) (hF : F.nonZero) (semid : Int) (type : Nat) :
    lock F semid type =
      [⟨semid, ⟨0, -1, 0⟩⟩, ⟨semid, ⟨1, -1, 0⟩⟩, ⟨semid, ⟨2, -1, 0⟩⟩, ⟨semid, ⟨3, -1, 0⟩⟩] := by
  obtain ⟨h0, h1, h2, h3⟩ := hF
  simp [lock, lor_ne_zero_of_right _ _ h0, lor_ne_zero_of_right _ _ h1,
    lor_ne_zero_of_right _ _ h2, lor_ne_zero_of_right _ _ h3]

/-- With non-zero flags every test `type | FLAG` of `unlock` succeeds: it issues the four
up operations whatever the requested set. -/
theorem unlock_all_four (F : SemphFlags) (hF : F.nonZero) (semid : Int) (type : Nat) :
    unlock F semid type =
      [⟨semid, ⟨0, 1, 0⟩⟩, ⟨semid, ⟨1, 1, 0⟩⟩, ⟨semid, ⟨2, 1, 0⟩⟩, ⟨semid, ⟨3, 1, 0⟩⟩] := by
  obtain ⟨h0, h1, h2, h3⟩ := hF
  simp [unlock, lor_ne_zero_of_right _ _ h0, lor_ne_zero_of_right _ _ h1,
    lor_ne_zero_of_right _ _ h2, lor_ne_zero_of_right _ _ h3]

/-- Whatever the flags, the semaphore indices of `lock` are picked, in order, from
`0, 1, 2, 3`. -/
theorem semNums_lock_sublist (F : SemphFlags) (semid : Int) (type : Nat) :
    List.Sublist (semNums (lock F semid type)) [0, 1, 2, 3] := by
  unfold lock semNums
  split_ifs <;>
  simp only [List.map, List.nil_append, List.cons_append, List.append_nil, List.map_nil,
    List.map_cons] <;>
  decide

/-- C1, at the flags 1, 2, 4, 8: `lock(SEMPH_PIZZAS)` and `unlock(SEMPH_PIZZAS)` operate on
all four semaphores, among them semaphore 0 whose class (philosophers) is not in
the requested set; a lock of the pizza class alone takes the four semaphores
from 1 to 0. -/
theorem lock_pizzas_operates_on_all_semaphores :
    ¬ requested bitFlags bitFlags.SEMPH_PIZZAS 0 ∧
    lock bitFlags 0 bitFlags.SEMPH_PIZZAS =
      [⟨0, ⟨0, -1, 0⟩⟩, ⟨0, ⟨1, -1, 0⟩⟩, ⟨0, ⟨2, -1, 0⟩⟩, ⟨0, ⟨3, -1, 0⟩⟩] ∧
    unlock bitFlags 0 bitFlags.SEMPH_PIZZAS =
      [⟨0, ⟨0, 1, 0⟩⟩, ⟨0, ⟨1, 1, 0⟩⟩, ⟨0, ⟨2, 1, 0⟩⟩, ⟨0, ⟨3, 1, 0⟩⟩] ∧
    downsOn (lock bitFlags 0 bitFlags.SEMPH_PIZZAS) 0 = 1 ∧
    upsOn (unlock bitFlags 0 bitFlags.SEMPH_PIZZAS) 0 = 1 ∧
    runSemops [1, 1, 1, 1] (lock bitFlags 0 bitFlags.SEMPH_PIZZAS) = some [0, 0, 0, 0] := by
  decide

/-- C4: the semaphore operations of `lock(type)` are down operations on the global
`semid`, and the sequence of their semaphore indices is strictly increasing within
`0..3` (philosophers, pizzas, spaghetti, cutlery) for every requested set; hence no
two calls of `lock` take two semaphores in opposite orders. -/
theorem lock_acquires_in_fixed_order (F : SemphFlags) (semid : Int) (type type' : Nat) :
    List.Pairwise (fun i j => i < j) (semNums (lock F semid type)) ∧
    (∀ c ∈ lock F semid type, c.semid = semid ∧ c.buf.sem_op = -1 ∧ c.buf.sem_num < 4) ∧
    (∀ i j, List.Sublist [i, j] (semNums (lock F semid type)) →
      ¬ List.Sublist [j, i] (semNums (lock F semid type'))) := by
  have hsorted : ∀ t, List.Pairwise (fun i j => i < j) (semNums (lock F semid t)) := by
    intro t
    exact List.Pairwise.sublist (semNums_lock_sublist F semid t) (by decide)
  refine ⟨hsorted type, ?_, ?_⟩
  · intro c hc
    unfold lock at hc
    simp only [List.mem_append] at hc
    rcases hc with ((hc | hc) | hc) | hc <;>
    · split at hc
      · simp only [List.mem_singleton] at hc
        subst hc
        simp
      · simp at hc
  · intro i j hij hji
    have h1 := List.Pairwise.sublist hij (hsorted type)
    have h2 := List.Pairwise.sublist hji (hsorted type')
    simp only [List.pairwise_cons, List.mem_singleton, forall_eq] at h1 h2
    omega

/-! ## Properties of `initSimulation` -/

/-- C5: started on a freshly created semaphore set (`semget` succeeds, the four values
are 0), `initSimulation` leaves each of the four semaphores at value 1; from
there a `lock` of any requested set succeeds without blocking, and a second `lock`
of the same set with no `unlock` in between blocks. -/
theorem initSimulation_semaphores_unlocked (F : SemphFlags) (hF : F.nonZero) (w : World)
    (params : Parameters) (type : Nat) (hget : 0 ≤ w.os.semget)
    (hfresh : w.sems = [0, 0, 0, 0]) :
    (initSimulation F w params).sems = some [1, 1, 1, 1] ∧
    runSemops [1, 1, 1, 1] (lock F (initSimulation F w params).semid type)
      = some [0, 0, 0, 0] ∧
    runSemops [0, 0, 0, 0] (lock F (initSimulation F w params).semid type) = none := by
  have hid : ¬ w.os.semget < 0 := not_lt.mpr hget
  simp [initSimulation, unlock_all_four F hF, lock_all_four F hF, runSemops, semop, SEMVMX,
    hid, hfresh]

/-- On the fresh semaphore set of `goodWorld`, with the flags 1, 2, 4, 8: the four values
are 1 after `initSimulation`, a lock of the pizza class succeeds and a second one
blocks. -/
theorem initSimulation_semaphores_unlocked_witness :
    bitFlags.nonZero ∧ 0 ≤ goodWorld.os.semget ∧ goodWorld.sems = [0, 0, 0, 0] ∧
    (initSimulation bitFlags goodWorld defaultParams).sems = some [1, 1, 1, 1] ∧
    runSemops [1, 1, 1, 1]
      (lock bitFlags (initSimulation bitFlags goodWorld defaultParams).semid
        bitFlags.SEMPH_PIZZAS) = some [0, 0, 0, 0] ∧
    runSemops [0, 0, 0, 0]
      (lock bitFlags (initSimulation bitFlags goodWorld defaultParams).semid
        bitFlags.SEMPH_PIZZAS) = none :=
  ⟨by decide, by decide, rfl,
    initSimulation_semaphores_unlocked bitFlags (by decide) goodWorld defaultParams
      bitFlags.SEMPH_PIZZAS (by decide) rfl⟩

/-- The initialisation loop leaves the slots below its start index untouched. -/
theorem initPhilosophers_below (p : Philosopher) (k i : Nat) (phi : Nat → Philosopher)
    (j : Nat) (hj : j < i) : initPhilosophers p k i phi j = phi j := by
  induction k generalizing i phi with
  | zero => rfl
  | succ k ih =>
    simp only [initPhilosophers]
    rw [ih (i + 1) _ (by omega)]
    simp [Nat.ne_of_lt hj]

/-- The initialisation loop writes `p` into each of the `k` slots from its start index. -/
theorem initPhilosophers_written (p : Philosopher) (k i : Nat) (phi : Nat → Philosopher)
    (j : Nat) (hij : i ≤ j) (hj : j < i + k) : initPhilosophers p k i phi j = p := by
  induction k generalizing i phi with
  | zero => omega
  | succ k ih =>
    simp only [initPhilosophers]
    by_cases h : j = i
    · rw [initPhilosophers_below p k (i + 1) _ j (by omega)]
      simp [h]
    · exact ih (i + 1) _ (by omega) (by omega)

/-- The philosopher records after the loop: `n` copies of `p`, whatever the segment held. -/
theorem philosophers_after_loop (p : Philosopher) (n : Nat) (phi : Nat → Philosopher) :
    (List.range n).map (initPhilosophers p n 0 phi) = List.replicate n p := by
  apply List.ext_getElem
  · simp
  · intro i h1 h2
    simp only [List.length_map, List.length_range] at h1
    simp [initPhilosophers_written p n 0 phi i (by omega) (by omega)]

/-- When the three segments are created and attached, `initSimulation` returns, and the
state it returns is the copy of the parameters, the dining room of the positional
initializer, `NUM_PHILOSOPHERS` born philosophers and the idle waiter. -/
theorem initSimulation_returns (F : SemphFlags) (w : World) (params : Parameters)
    (hshm : w.os.shmOk) :
    (initSimulation F w params).result =
      .returned ⟨params,
        ⟨params.NUM_PIZZA, params.NUM_SPAGHETTI, params.NUM_FORKS, params.NUM_KNIVES,
          0, 0, 0, 0⟩,
        List.replicate params.NUM_PHILOSOPHERS.toNat bornPhilosopher,
        ⟨.W_NONE, .W_INACTIVE, .W_INACTIVE, .W_INACTIVE⟩⟩ := by
  obtain ⟨h1, h2, h3, h4, h5, h6⟩ := hshm
  simp [initSimulation, shmat, h1, h2, h3, h4, h5, h6, philosophers_after_loop,
    bornPhilosopher]

/-- C6: for `NUM_PHILOSOPHERS = n >= 1` (the segments being created and attached),
`initSimulation` returns a state with exactly `n` philosopher records, each of them
(index `0..n-1`) in state `P_BIRTH` with food `P_NONE` and both cutlery slots
`P_NOTHING`, whatever the segment held before; the waiter has activity `W_NONE` and
its three sub-statuses `W_INACTIVE`; so held-cutlery slots are non-`P_NOTHING` only
while eating. -/
theorem initSimulation_philosophers_born (F : SemphFlags) (w : World) (params : Parameters)
    (hn : 1 ≤ params.NUM_PHILOSOPHERS) (hshm : w.os.shmOk) :
    ∃ sim, (initSimulation F w params).result = .returned sim ∧
      (sim.philosophers.length : Int) = params.NUM_PHILOSOPHERS ∧
      (∀ i, i < params.NUM_PHILOSOPHERS.toNat →
        sim.philosophers.get? i = some ⟨.P_BIRTH, .P_NONE, .P_NOTHING, .P_NOTHING⟩) ∧
      sim.waiter = ⟨.W_NONE, .W_INACTIVE, .W_INACTIVE, .W_INACTIVE⟩ ∧
      heldOnlyWhileEating sim := by
  refine ⟨_, initSimulation_returns F w params hshm, ?_, ?_, rfl, ?_⟩
  · simp only [List.length_replicate]
    omega
  · intro i hi
    simp [hi, bornPhilosopher]
  · intro p hp
    simp only [List.mem_replicate] at hp
    rw [hp.2]
    simp [bornPhilosopher]

/-- With the default parameters in `goodWorld`, whose philosophers segment holds dead
philosophers with cutlery: the returned state has three born philosophers. -/
theorem initSimulation_philosophers_born_witness :
    1 ≤ defaultParams.NUM_PHILOSOPHERS ∧ goodWorld.os.shmOk ∧
    ∃ sim, (initSimulation bitFlags goodWorld defaultParams).result = .returned sim ∧
      (sim.philosophers.length : Int) = defaultParams.NUM_PHILOSOPHERS ∧
      (∀ i, i < defaultParams.NUM_PHILOSOPHERS.toNat →
        sim.philosophers.get? i = some ⟨.P_BIRTH, .P_NONE, .P_NOTHING, .P_NOTHING⟩) ∧
      sim.waiter = ⟨.W_NONE, .W_INACTIVE, .W_INACTIVE, .W_INACTIVE⟩ ∧
      heldOnlyWhileEating sim :=
  ⟨by decide, by decide,
    initSimulation_philosophers_born bitFlags goodWorld defaultParams (by decide)
      (by decide)⟩

/-- The philosophers of the initial state have taken no portion. -/
theorem countP_meal_replicate_born (n : Nat) (m : Meal) (hm : m ≠ .P_NONE) :
    (List.replicate n bornPhilosopher).countP (fun p => p.meal = m) = 0 := by
  rw [List.countP_eq_zero]
  intro p hp
  simp only [List.mem_replicate] at hp
  rw [hp.2]
  simp [bornPhilosopher, Ne.symm hm]

/-- C7: for a valid configuration (the segments being created and attached), the dining
room that `initSimulation` creates has `pizzaStock = NUM_PIZZA`,
`spaghettiStock = NUM_SPAGHETTI`, `forksAvailable = NUM_FORKS`,
`knivesAvailable = NUM_KNIVES` and its four auxiliary counters 0; so the four stock
counters are non-negative and, for each resource type, stock + held + pending
equals the configured supply in the initial state. -/
theorem initSimulation_diningRoom (F : SemphFlags) (w : World) (params : Parameters)
    (hpizza : 1 ≤ params.NUM_PIZZA) (hspaghetti : 1 ≤ params.NUM_SPAGHETTI)
    (hforks : 2 ≤ params.NUM_FORKS) (hknives : 1 ≤ params.NUM_KNIVES)
    (hshm : w.os.shmOk) :
    ∃ sim, (initSimulation F w params).result = .returned sim ∧
      sim.params = params ∧
      sim.diningRoom =
        ⟨params.NUM_PIZZA, params.NUM_SPAGHETTI, params.NUM_FORKS, params.NUM_KNIVES,
          0, 0, 0, 0⟩ ∧
      0 ≤ sim.diningRoom.pizzaStock ∧ 0 ≤ sim.diningRoom.spaghettiStock ∧
      0 ≤ sim.diningRoom.forksAvailable ∧ 0 ≤ sim.diningRoom.knivesAvailable ∧
      conservation sim := by
  refine ⟨_, initSimulation_returns F w params hshm, rfl, rfl, ?_, ?_, ?_, ?_, ?_⟩
  · show 0 ≤ params.NUM_PIZZA
    omega
  · show 0 ≤ params.NUM_SPAGHETTI
    omega
  · show 0 ≤ params.NUM_FORKS
    omega
  · show 0 ≤ params.NUM_KNIVES
    omega
  · intro a ha
    simp only [DiningRoom.pending, List.mem_cons, List.mem_singleton, List.not_mem_nil,
      or_false, or_self] at ha
    subst ha
    have hf : bornPhilosopher.holds Cutlery.P_FORK = 0 := by decide
    have hk : bornPhilosopher.holds Cutlery.P_KNIFE = 0 := by decide
    simp [heldMeals, heldCutlery, countP_meal_replicate_born, hf, hk]

/-- With the default parameters in `goodWorld`: the dining room holds 10 pizzas, 10
spaghetti, 3 forks and 2 knives, and conservation holds. -/
theorem initSimulation_diningRoom_witness :
    1 ≤ defaultParams.NUM_PIZZA ∧ 1 ≤ defaultParams.NUM_SPAGHETTI ∧
    2 ≤ defaultParams.NUM_FORKS ∧ 1 ≤ defaultParams.NUM_KNIVES ∧ goodWorld.os.shmOk ∧
    ∃ sim, (initSimulation bitFlags goodWorld defaultParams).result = .returned sim ∧
      sim.params = defaultParams ∧
      sim.diningRoom =
        ⟨defaultParams.NUM_PIZZA, defaultParams.NUM_SPAGHETTI, defaultParams.NUM_FORKS,
          defaultParams.NUM_KNIVES, 0, 0, 0, 0⟩ ∧
      0 ≤ sim.diningRoom.pizzaStock ∧ 0 ≤ sim.diningRoom.spaghettiStock ∧
      0 ≤ sim.diningRoom.forksAvailable ∧ 0 ≤ sim.diningRoom.knivesAvailable ∧
      conservation sim :=
  ⟨by decide, by decide, by decide, by decide, by decide,
    initSimulation_diningRoom bitFlags goodWorld defaultParams (by decide) (by decide)
      (by decide) (by decide) (by decide)⟩

/-! ## Properties of `processArgs` -/

/-- The option loop over a sequence of results that is cut at one result. -/
theorem processLoop_append (params : Parameters) (pre post : List OptResult) (r : OptResult) :
    processLoop params (pre ++ r :: post) =
      match processLoop params pre with
      | .exited status => .exited status
      | .aborted => .aborted
      | .returned p =>
        match processOption p r with
        | .exited status => .exited status
        | .aborted => .aborted
        | .returned q => processLoop q post := by
  induction pre generalizing params with
  | nil =>
    simp only [List.nil_append, processLoop]
    cases processOption params r <;> rfl
  | cons a pre ih =>
    simp only [List.cons_append, processLoop]
    cases processOption params a with
    | returned q => exact ih q
    | exited status => rfl
    | aborted => rfl

/-- The switch never fails an assertion. -/
theorem processOption_never_aborts (params : Parameters) (r : OptResult) :
    processOption params r ≠ .aborted := by
  intro h
  unfold processOption at h
  simp only at h
  by_cases h_h : r.op = 'h'
  · rw [if_pos h_h] at h
    exact absurd h (by simp)
  rw [if_neg h_h] at h
  by_cases h_n : r.op = 'n'
  · rw [if_pos h_n] at h
    split_ifs at h
  rw [if_neg h_n] at h
  by_cases h_l : r.op = 'l'
  · rw [if_pos h_l] at h
    split_ifs at h
  rw [if_neg h_l] at h
  by_cases h_L : r.op = 'L'
  · rw [if_pos h_L] at h
    split_ifs at h
  rw [if_neg h_L] at h
  by_cases h_f : r.op = 'f'
  · rw [if_pos h_f] at h
    split_ifs at h
  rw [if_neg h_f] at h
  by_cases h_k : r.op = 'k'
  · rw [if_pos h_k] at h
    split_ifs at h
  rw [if_neg h_k] at h
  by_cases h_p : r.op = 'p'
  · rw [if_pos h_p] at h
    split_ifs at h
  rw [if_neg h_p] at h
  by_cases h_s : r.op = 's'
  · rw [if_pos h_s] at h
    split_ifs at h
  rw [if_neg h_s] at h
  by_cases h_t : r.op = 't'
  · rw [if_pos h_t] at h
    split_ifs at h
  rw [if_neg h_t] at h
  by_cases h_c : r.op = 'c'
  · rw [if_pos h_c] at h
    split_ifs at h
  rw [if_neg h_c] at h
  by_cases h_e : r.op = 'e'
  · rw [if_pos h_e] at h
    split_ifs at h
  rw [if_neg h_e] at h
  by_cases h_w : r.op = 'w'
  · rw [if_pos h_w] at h
    split_ifs at h
  rw [if_neg h_w] at h
  exact absurd h (by simp)

/-- The option loop never fails an assertion. -/
theorem processLoop_never_aborts (params : Parameters) (rs : List OptResult) :
    processLoop params rs ≠ .aborted := by
  induction rs generalizing params with
  | nil => simp [processLoop]
  | cons r rs ih =>
    simp only [processLoop]
    cases hq : processOption params r with
    | returned q => exact ih q
    | exited status => simp
    | aborted => exact absurd hq (processOption_never_aborts params r)

/-- The case `'f'` of the switch rejects a value below 2. -/
theorem processOption_forks_low (params : Parameters) (arg : CStr) (hlow : atoi arg < 2) :
    processOption params ⟨'f', arg⟩ = .exited EXIT_FAILURE := by
  have h1 : ¬ ('f' = 'h') := by decide
  have h2 : ¬ ('f' = 'n') := by decide
  have h3 : ¬ ('f' = 'l') := by decide
  have h4 : ¬ ('f' = 'L') := by decide
  simp only [processOption, h1, h2, h3, h4, if_false, if_true, hlow]

/-- One pass through the switch keeps every configuration constraint other than
minimum life <= maximum life. -/
theorem processOption_keeps (params p : Parameters) (r : OptResult)
    (hv : validConfigExceptLifeOrder params) (hr : processOption params r = .returned p) :
    validConfigExceptLifeOrder p := by
  obtain ⟨h1, h2, h3, h4, h5, h6, h7, h8, h9, h10, h11, h12⟩ := hv
  unfold processOption at hr
  simp only at hr
  by_cases h_h : r.op = 'h'
  · rw [if_pos h_h] at hr
    exact absurd hr (by simp)
  rw [if_neg h_h] at hr
  by_cases h_n : r.op = 'n'
  · rw [if_pos h_n] at hr
    split_ifs at hr
    simp only [Outcome.returned.injEq] at hr
    subst hr
    refine ⟨?_, ?_, ?_, ?_, ?_, ?_, ?_, ?_, ?_, ?_, ?_, ?_⟩ <;> simp only <;> omega
  rw [if_neg h_n] at hr
  by_cases h_l : r.op = 'l'
  · rw [if_pos h_l] at hr
    split_ifs at hr
    simp only [Outcome.returned.injEq] at hr
    subst hr
    refine ⟨?_, ?_, ?_, ?_, ?_, ?_, ?_, ?_, ?_, ?_, ?_, ?_⟩ <;> simp only <;> omega
  rw [if_neg h_l] at hr
  by_cases h_L : r.op = 'L'
  · rw [if_pos h_L] at hr
    split_ifs at hr
    simp only [Outcome.returned.injEq] at hr
    subst hr
    refine ⟨?_, ?_, ?_, ?_, ?_, ?_, ?_, ?_, ?_, ?_, ?_, ?_⟩ <;> simp only <;> omega
  rw [if_neg h_L] at hr
  by_cases h_f : r.op = 'f'
  · rw [if_pos h_f] at hr
    split_ifs at hr
    simp only [Outcome.returned.injEq] at hr
    subst hr
    refine ⟨?_, ?_, ?_, ?_, ?_, ?_, ?_, ?_, ?_, ?_, ?_, ?_⟩ <;> simp only <;> omega
  rw [if_neg h_f] at hr
  by_cases h_k : r.op = 'k'
  · rw [if_pos h_k] at hr
    split_ifs at hr
    simp only [Outcome.returned.injEq] at hr
    subst hr
    refine ⟨?_, ?_, ?_, ?_, ?_, ?_, ?_, ?_, ?_, ?_, ?_, ?_⟩ <;> simp only <;> omega
  rw [if_neg h_k] at hr
  by_cases h_p : r.op = 'p'
  · rw [if_pos h_p] at hr
    split_ifs at hr
    simp only [Outcome.returned.injEq] at hr
    subst hr
    refine ⟨?_, ?_, ?_, ?_, ?_, ?_, ?_, ?_, ?_, ?_, ?_, ?_⟩ <;> simp only <;> omega
  rw [if_neg h_p] at hr
  by_cases h_s : r.op = 's'
  · rw [if_pos h_s] at hr
    split_ifs at hr
    simp only [Outcome.returned.injEq] at hr
    subst hr
    refine ⟨?_, ?_, ?_, ?_, ?_, ?_, ?_, ?_, ?_, ?_, ?_, ?_⟩ <;> simp only <;> omega
  rw [if_neg h_s] at hr
  by_cases h_t : r.op = 't'
  · rw [if_pos h_t] at hr
    split_ifs at hr
    simp only [Outcome.returned.injEq] at hr
    subst hr
    refine ⟨?_, ?_, ?_, ?_, ?_, ?_, ?_, ?_, ?_, ?_, ?_, ?_⟩ <;> simp only <;> omega
  rw [if_neg h_t] at hr
  by_cases h_c : r.op = 'c'
  · rw [if_pos h_c] at hr
    split_ifs at hr
    simp only [Outcome.returned.injEq] at hr
    subst hr
    refine ⟨?_, ?_, ?_, ?_, ?_, ?_, ?_, ?_, ?_, ?_, ?_, ?_⟩ <;> simp only <;> omega
  rw [if_neg h_c] at hr
  by_cases h_e : r.op = 'e'
  · rw [if_pos h_e] at hr
    split_ifs at hr
    simp only [Outcome.returned.injEq] at hr
    subst hr
    refine ⟨?_, ?_, ?_, ?_, ?_, ?_, ?_, ?_, ?_, ?_, ?_, ?_⟩ <;> simp only <;> omega
  rw [if_neg h_e] at hr
  by_cases h_w : r.op = 'w'
  · rw [if_pos h_w] at hr
    split_ifs at hr
    simp only [Outcome.returned.injEq] at hr
    subst hr
    refine ⟨?_, ?_, ?_, ?_, ?_, ?_, ?_, ?_, ?_, ?_, ?_, ?_⟩ <;> simp only <;> omega
  rw [if_neg h_w] at hr
  exact absurd hr (by simp)

/-- The option loop keeps every configuration constraint other than minimum life <=
maximum life. -/
theorem processLoop_keeps (params p : Parameters) (rs : List OptResult)
    (hv : validConfigExceptLifeOrder params) (hr : processLoop params rs = .returned p) :
    validConfigExceptLifeOrder p := by
  induction rs generalizing params with
  | nil =>
    simp only [processLoop, Outcome.returned.injEq] at hr
    exact hr ▸ hv
  | cons r rs ih =>
    simp only [processLoop] at hr
    cases hq : processOption params r with
    | returned q =>
      rw [hq] at hr
      exact ih q (processOption_keeps params q r hv hq) hr
    | exited status =>
      rw [hq] at hr
      exact absurd hr (by simp)
    | aborted =>
      rw [hq] at hr
      exact absurd hr (by simp)

/-- Whenever `processArgs` returns from the defaults of `main`, the parameters satisfy
every configuration constraint other than minimum life <= maximum life. -/
theorem processArgs_keeps_other_constraints (argv : List CStr) (p : Parameters)
    (hr : processArgs defaultParams argv = .returned p) : validConfigExceptLifeOrder p := by
  unfold processArgs at hr
  by_cases hempty : argv.isEmpty = true
  · rw [if_pos hempty] at hr
    exact absurd hr (by simp)
  rw [if_neg hempty] at hr
  cases hq : processLoop defaultParams (getopt_long argv).1 with
  | returned q =>
    rw [hq] at hr
    simp only at hr
    split_ifs at hr
    simp only [Outcome.returned.injEq] at hr
    exact hr ▸ processLoop_keeps defaultParams q _ (by decide) hq
  | exited status =>
    rw [hq] at hr
    exact absurd hr (by simp)
  | aborted =>
    rw [hq] at hr
    exact absurd hr (by simp)

/-- C2, at the arguments `prog -l 200`: `processArgs` returns, with minimum life 200 and
the default maximum life 100, so the constraint minimum life <= maximum life does
not hold; the case `'l'` does not compare with the maximum, as the case `'L'` does
with the minimum. -/
theorem min_life_alone_exceeds_max_life :
    processArgs defaultParams ["prog".toList, "-l".toList, "200".toList] =
      .returned ⟨3, 200, 100, 3, 2, 10, 10, 20, 50, 10, 15⟩ ∧
    ¬ validConfig ⟨3, 200, 100, 3, 2, 10, 10, 20, 50, 10, 15⟩ ∧
    processArgs defaultParams
        ["prog".toList, "-L".toList, "50".toList, "-l".toList, "60".toList] =
      .returned ⟨3, 60, 50, 3, 2, 10, 10, 20, 50, 10, 15⟩ ∧
    processArgs defaultParams
        ["prog".toList, "-l".toList, "60".toList, "-L".toList, "50".toList] =
      .exited EXIT_FAILURE := by
  decide

/-- C10, with no options: `processArgs` returns the initializer of `main` unchanged,
which has 3 philosophers where the help text documents 5; the other ten values are
the documented ones. -/
theorem default_philosophers_differ_from_help :
    processArgs defaultParams ["prog".toList] = .returned defaultParams ∧
    defaultParams.NUM_PHILOSOPHERS = 3 ∧
    helpDefaults.NUM_PHILOSOPHERS = 5 ∧
    defaultParams ≠ helpDefaults ∧
    { defaultParams with NUM_PHILOSOPHERS := 5 } = helpDefaults := by
  decide

/-- C3: when the results of `getopt_long` on the argument vector contain the option `f`
(`-f` or `--num-forks`) with an argument that `atoi` reads below 2, `processArgs`
ends the process: with `EXIT_FAILURE` if the loop reaches that option, and in any
case before returning; `main` then calls nothing but `processArgs`, issues no
semaphore operation and creates nothing. -/
theorem forks_below_two_rejected (F : SemphFlags) (w : World) (argv : List CStr)
    (pre post : List OptResult) (arg : CStr)
    (hopt : (getopt_long argv).1 = pre ++ ⟨'f', arg⟩ :: post) (hlow : atoi arg < 2) :
    (∀ p, processLoop defaultParams pre = .returned p →
      processArgs defaultParams argv = .exited EXIT_FAILURE) ∧
    (∃ status, processArgs defaultParams argv = .exited status ∧
      main F w argv = ⟨[.processArgs], [], [], .exited status⟩) := by
  have hloop := processLoop_append defaultParams pre post ⟨'f', arg⟩
  rw [← hopt] at hloop
  have hname : argv.isEmpty = false := by
    cases argv with
    | nil => simp [getopt_long, getoptScan] at hopt
    | cons a rest => rfl
  have hnever : ∀ (q : Parameters) (rs : List OptResult), processLoop q rs ≠ .aborted :=
    processLoop_never_aborts
  constructor
  · intro p hp
    simp only [hp, processOption_forks_low p arg hlow] at hloop
    simp [processArgs, hloop, hname]
  · cases hp : processLoop defaultParams pre with
    | returned p =>
      simp only [hp, processOption_forks_low p arg hlow] at hloop
      exact ⟨EXIT_FAILURE, by simp [processArgs, hloop, hname], by
        simp [main, processArgs, hloop, hname]⟩
    | exited status =>
      simp only [hp] at hloop
      exact ⟨status, by simp [processArgs, hloop, hname], by
        simp [main, processArgs, hloop, hname]⟩
    | aborted => exact absurd hp (hnever defaultParams pre)

/-- The arguments `prog -n 4 --num-forks 1` contain the option `f` with value 1 after an
accepted option: the run ends with `EXIT_FAILURE` in `processArgs`. -/
theorem forks_below_two_rejected_witness :
    (getopt_long ["prog".toList, "-n".toList, "4".toList, "--num-forks".toList,
        "1".toList]).1 = [⟨'n', "4".toList⟩] ++ ⟨'f', "1".toList⟩ :: [] ∧
    atoi "1".toList < 2 ∧
    processArgs defaultParams ["prog".toList, "-n".toList, "4".toList,
        "--num-forks".toList, "1".toList] = .exited EXIT_FAILURE ∧
    ∃ status, processArgs defaultParams
        ["prog".toList, "-n".toList, "4".toList, "--num-forks".toList, "1".toList] =
          .exited status ∧
      main bitFlags goodWorld
        ["prog".toList, "-n".toList, "4".toList, "--num-forks".toList, "1".toList] =
          ⟨[.processArgs], [], [], .exited status⟩ :=
  ⟨by decide, by decide,
    (forks_below_two_rejected bitFlags goodWorld
      ["prog".toList, "-n".toList, "4".toList, "--num-forks".toList, "1".toList]
      [⟨'n', "4".toList⟩] [] "1".toList (by decide) (by decide)).1
      ⟨4, 10, 100, 3, 2, 10, 10, 20, 50, 10, 15⟩ (by decide),
    (forks_below_two_rejected bitFlags goodWorld
      ["prog".toList, "-n".toList, "4".toList, "--num-forks".toList, "1".toList]
      [⟨'n', "4".toList⟩] [] "1".toList (by decide) (by decide)).2⟩

/-! ## Properties of the orchestrator -/

/-- A `semop` call on an invalid identifier changes no semaphore value. -/
theorem runSemops_invalid (vals : List Int) (calls : List SemopCall)
    (h : ∀ c ∈ calls, c.semid < 0) : runSemops vals calls = some vals := by
  induction calls with
  | nil => rfl
  | cons c cs ih =>
    have hc : c.semid < 0 := h c (List.mem_cons_self c cs)
    simp only [runSemops, semop, hc, if_true]
    exact ih (fun d hd => h d (List.mem_cons_of_mem c hd))

/-- When the first two attachments succeed and the third fails, or an earlier one
fails, `initSimulation` executes the `memcpy` through the failed attachment: no
result of `shmget` or `shmat` is tested.  Here for the dining room. -/
theorem initSimulation_writes_through_failed_attachment (F : SemphFlags) (w : World)
    (params : Parameters) (hfail : shmat w.os.shmget_diningRoom w.os.shmat_diningRoom = false) :
    (initSimulation F w params).result = .invalidWrite .diningRoom := by
  simp [initSimulation, hfail]

/-- C8, with `semget` failing: `initSimulation` issues the four `semop` calls of
`unlock(SEMPH_ALL)` on the identifier -1, returns an initialised simulation, and
`main` goes on to `logger` and `go`. -/
theorem semget_failure_not_surfaced :
    semgetFails.os.semget = -1 ∧
    (initSimulation bitFlags semgetFails defaultParams).semops =
      [⟨-1, ⟨0, 1, 0⟩⟩, ⟨-1, ⟨1, 1, 0⟩⟩, ⟨-1, ⟨2, 1, 0⟩⟩, ⟨-1, ⟨3, 1, 0⟩⟩] ∧
    (initSimulation bitFlags semgetFails defaultParams).result =
      .returned ⟨defaultParams, ⟨10, 10, 3, 2, 0, 0, 0, 0⟩,
        [bornPhilosopher, bornPhilosopher, bornPhilosopher],
        ⟨.W_NONE, .W_INACTIVE, .W_INACTIVE, .W_INACTIVE⟩⟩ ∧
    (main bitFlags semgetFails ["prog".toList]).calls =
      [.processArgs, .showParams, .getchar, .initSimulation, .logger, .go] := by
  decide

/-- C8, amended: when `semget` fails, `initSimulation` does not surface the failure and
startup goes on: `semid` holds the error value, `unlock(SEMPH_ALL)` issues its four
`semop` calls on it (they change no semaphore value), and, the three segments
being created and attached, `initSimulation` returns the initialised simulation (the
copy of the parameters, the dining room of the positional initializer,
`NUM_PHILOSOPHERS` born philosophers, the idle waiter) and `main` calls, in this
order, `processArgs`, `showParams`, `getchar`, `initSimulation`, `logger` and `go`,
with these four `semop` calls as the only ones it issues itself. -/
theorem initSimulation_ignores_semget_failure (F : SemphFlags) (hF : F.nonZero) (w : World)
    (argv : List CStr) (params : Parameters)
    (hargs : processArgs defaultParams argv = .returned params)
    (hsem : w.os.semget < 0) (hshm : w.os.shmOk) :
    (initSimulation F w params).semid = w.os.semget ∧
    (initSimulation F w params).semops =
      [⟨w.os.semget, ⟨0, 1, 0⟩⟩, ⟨w.os.semget, ⟨1, 1, 0⟩⟩, ⟨w.os.semget, ⟨2, 1, 0⟩⟩,
        ⟨w.os.semget, ⟨3, 1, 0⟩⟩] ∧
    (initSimulation F w params).sems = some w.sems ∧
    (initSimulation F w params).result =
      .returned ⟨params,
        ⟨params.NUM_PIZZA, params.NUM_SPAGHETTI, params.NUM_FORKS, params.NUM_KNIVES,
          0, 0, 0, 0⟩,
        List.replicate params.NUM_PHILOSOPHERS.toNat bornPhilosopher,
        ⟨.W_NONE, .W_INACTIVE, .W_INACTIVE, .W_INACTIVE⟩⟩ ∧
    List.IsPrefix
      [Call.processArgs, Call.showParams, Call.getchar, Call.initSimulation, Call.logger,
        Call.go] (main F w argv).calls ∧
    (main F w argv).semops =
      [⟨w.os.semget, ⟨0, 1, 0⟩⟩, ⟨w.os.semget, ⟨1, 1, 0⟩⟩, ⟨w.os.semget, ⟨2, 1, 0⟩⟩,
        ⟨w.os.semget, ⟨3, 1, 0⟩⟩] := by
  have hops : (initSimulation F w params).semops =
      [⟨w.os.semget, ⟨0, 1, 0⟩⟩, ⟨w.os.semget, ⟨1, 1, 0⟩⟩, ⟨w.os.semget, ⟨2, 1, 0⟩⟩,
        ⟨w.os.semget, ⟨3, 1, 0⟩⟩] := unlock_all_four F hF w.os.semget F.SEMPH_ALL
  refine ⟨rfl, hops, ?_, initSimulation_returns F w params hshm, ?_, ?_⟩
  · show runSemops w.sems (initSimulation F w params).semops = some w.sems
    apply runSemops_invalid
    rw [hops]
    intro c hc
    simp only [List.mem_cons, List.mem_singleton, List.not_mem_nil, or_false] at hc
    rcases hc with hc | hc | hc | hc <;> (subst hc; exact hsem)
  · simp only [main, hargs, initSimulation_returns F w params hshm]
    cases go w _ <;> simp only <;> decide
  · simp only [main, hargs, initSimulation_returns F w params hshm]
    cases go w _ <;> exact hops

/-- The arguments `prog` in the world where only `semget` fails: the four semaphores keep
their values, the simulation returned has the default dining room and three born
philosophers, and startup goes on to `go`. -/
theorem initSimulation_ignores_semget_failure_witness :
    bitFlags.nonZero ∧
    processArgs defaultParams ["prog".toList] = .returned defaultParams ∧
    semgetFails.os.semget < 0 ∧ semgetFails.os.shmOk ∧
    (initSimulation bitFlags semgetFails defaultParams).sems = some semgetFails.sems ∧
    (initSimulation bitFlags semgetFails defaultParams).result =
      .returned ⟨defaultParams,
        ⟨defaultParams.NUM_PIZZA, defaultParams.NUM_SPAGHETTI, defaultParams.NUM_FORKS,
          defaultParams.NUM_KNIVES, 0, 0, 0, 0⟩,
        List.replicate defaultParams.NUM_PHILOSOPHERS.toNat bornPhilosopher,
        ⟨.W_NONE, .W_INACTIVE, .W_INACTIVE, .W_INACTIVE⟩⟩ ∧
    List.IsPrefix
      [Call.processArgs, Call.showParams, Call.getchar, Call.initSimulation, Call.logger,
        Call.go] (main bitFlags semgetFails ["prog".toList]).calls ∧
    (main bitFlags semgetFails ["prog".toList]).semops =
      [⟨semgetFails.os.semget, ⟨0, 1, 0⟩⟩, ⟨semgetFails.os.semget, ⟨1, 1, 0⟩⟩,
        ⟨semgetFails.os.semget, ⟨2, 1, 0⟩⟩, ⟨semgetFails.os.semget, ⟨3, 1, 0⟩⟩] :=
  ⟨by decide, by decide, by decide, by decide,
    (initSimulation_ignores_semget_failure bitFlags (by decide) semgetFails ["prog".toList]
      defaultParams (by decide) (by decide) (by decide)).2.2⟩

/-- The children that never terminate, when every philosopher does. -/
theorem forkChildren_alive (w : World) (sim : Simulation)
    (hp : ∀ i, w.philosopherReturns i = true) :
    (forkChildren w sim).filter (fun c => !c.terminates) =
      if w.waiterExits then [] else [⟨.waiter, false⟩] := by
  unfold forkChildren
  rw [List.filter_append, List.filter_map]
  have hnone : (List.range sim.params.NUM_PHILOSOPHERS.toNat).filter
      ((fun c : ChildProcess => !c.terminates) ∘
        fun i => (⟨.philosopher i, w.philosopherReturns i⟩ : ChildProcess)) = [] := by
    rw [List.filter_eq_nil_iff]
    intro i _
    simp [hp i]
  rw [hnone]
  cases hw : w.waiterExits <;> simp

/-- When every philosopher terminates and nothing ends the waiter, `go` never returns: it
stays in `wait` with the waiter as its remaining child. -/
theorem go_waits_for_waiter (w : World) (sim : Simulation)
    (hp : ∀ i, w.philosopherReturns i = true) (hw : w.waiterExits = false) :
    go w sim = .waitsForever [.waiter] := by
  simp [go, waitLoop, forkChildren_alive w sim hp, hw]

/-- When every philosopher terminates and the waiter is ended, `go` returns. -/
theorem go_returns_when_waiter_ends (w : World) (sim : Simulation)
    (hp : ∀ i, w.philosopherReturns i = true) (hw : w.waiterExits = true) :
    go w sim = .returned := by
  simp [go, waitLoop, forkChildren_alive w sim hp, hw]

/-- C9, on a run with the default parameters in which the three philosophers
terminate and the waiter loops for ever: `go` stays in `wait` with the waiter as its
remaining child, so `main` never calls `finish` and nothing is released. -/
theorem go_never_returns_while_waiter_loops :
    (∀ i, goodWorld.philosopherReturns i = true) ∧
    goodWorld.waiterExits = false ∧
    main bitFlags goodWorld ["prog".toList] =
      ⟨[.processArgs, .showParams, .getchar, .initSimulation, .logger, .go],
        [⟨0, ⟨0, 1, 0⟩⟩, ⟨0, ⟨1, 1, 0⟩⟩, ⟨0, ⟨2, 1, 0⟩⟩, ⟨0, ⟨3, 1, 0⟩⟩],
        [], .waitsForever [.waiter]⟩ :=
  ⟨fun _ => rfl, rfl, by decide⟩

end Buffet
